import Mathlib

/-!
# mysh: a shallow embedding of `mysh.c`

The shell keeps its command line in a fixed array `char *args[MAX_ARGS]`.  The
embedding follows the C text function by function:

* a C string is a `String`, one character standing for one byte;
  character-level work (`strtok`, `strchr`) is done on its list of characters;
* the argument array is a map from slot index to `Option String` (`none` is the
  `NULL` pointer); every access goes through `load` / `store`, which report an
  access outside the 64 slots as an `Abort` instead of performing it;
* loops are structural recursions on a counter that is larger than the number
  of passes the C loop can make before it either stops or leaves the array;
* everything the C code asks of the operating system (`stat`, `glob`, `getenv`,
  `fopen`, `fork`, ...) is a field of `Sys`, and output is appended to traces.
-/

namespace Mysh

/-! ## Constants -/

abbrev MAX_INPUT_LENGTH : Nat := 1024
abbrev MAX_ARGS : Nat := 64
abbrev MAX_DIRS : Nat := 6

/-- The global `dirs` table. -/
def dirs : List String :=
  ["/usr/local/sbin", "/usr/local/bin", "/usr/sbin", "/usr/bin", "/sbin", "/bin"]

/-! ## Memory model of the argument array -/

/-- Ways in which a run leaves defined C behaviour, or leaves the process. -/
inductive Abort where
  /-- a write to `args[idx]` with `idx ≥ MAX_ARGS` -/
  | oobWrite (idx : Nat)
  /-- a read of `args[idx]` with `idx ≥ MAX_ARGS` -/
  | oobRead (idx : Nat)
  /-- a `NULL` pointer handed to a function that dereferences it -/
  | nullDeref
  /-- a call of `exit(code)` -/
  | exited (code : Int)
  /-- a `strcpy` of `size` bytes, terminator included, into `char path[1024]` -/
  | pathOverflow (size : Nat)
  /-- a read of a string that `globfree` has released -/
  | useAfterFree
  /-- a read of a variable that was never given a value -/
  | uninitRead
  /-- a loop counter of the embedding ran out; the counters are chosen above the
  number of passes the C loop can make, so no run of the program ends here -/
  | stuck
  deriving DecidableEq, Repr

/-- The contents of `char *args[MAX_ARGS]`, slot by slot. -/
abbrev Args := Nat → Option String

/-- Read `args[i]`. -/
def load (a : Args) (i : Nat) : Except Abort (Option String) :=
  if i < MAX_ARGS then .ok (a i) else .error (.oobRead i)

/-- The array after `args[i] = v`, for an index inside the array. -/
def put (a : Args) (i : Nat) (v : Option String) : Args :=
  fun k => if k = i then v else a k

/-- Perform `args[i] = v`. -/
def store (a : Args) (i : Nat) (v : Option String) : Except Abort Args :=
  if i < MAX_ARGS then .ok (put a i v) else .error (.oobWrite i)

/-- The tokens of the array from slot `i` up to the first `NULL`, looking at no
more than `n` slots. -/
def argvFrom (a : Args) : Nat → Nat → List String
  | _, 0 => []
  | i, n + 1 =>
    match a i with
    | none => []
    | some s => s :: argvFrom a (i + 1) n

/-- The `NULL`-terminated argument list held in the array. -/
def argv (a : Args) : List String := argvFrom a 0 MAX_ARGS

/-- An array holding the tokens `ts`, a `NULL` after them, then whatever `rest`
holds (the slots behind the terminator keep what earlier lines left there). -/
def mkArgs (ts : List String) (rest : Args) : Args :=
  fun k => if k < ts.length then ts.get? k else if k = ts.length then none else rest k

/-- An array whose every slot is `NULL`. -/
def noArgs : Args := fun _ => none

/-! ## `strtok` -/

/-- The test whether `c` is one of the characters of the delimiter string. -/
def isDelim (delims : List Char) (c : Char) : Bool := delims.contains c

/-- One call of `strtok` on the characters that remain: the token found, if
any, and the characters that remain for the next call with a `NULL` first
argument.  Leading delimiters are skipped; the token runs to the next delimiter,
which is overwritten by the terminator and skipped. -/
def strtok (delims : List Char) (s : List Char) : Option (List Char) × List Char :=
  match s.dropWhile (isDelim delims) with
  | [] => (none, [])
  | c :: cs =>
    (some ((c :: cs).takeWhile (fun x => !isDelim delims x)),
      ((c :: cs).dropWhile (fun x => !isDelim delims x)).drop 1)

/-! ## The tokenizer of `main` (lines 107-117) -/

/-- The loop `while (token != NULL) { args[i] = token; token = strtok(NULL, " "); i++; }`.
Each pass stores into a fresh slot, so 65 passes cannot all succeed. -/
def tokenize_loop : Nat → Option (List Char) → List Char → Nat → Args → Except Abort (Nat × Args)
  | _, none, _, i, a => .ok (i, a)
  | 0, some _, _, i, _ => .error (.oobWrite i)
  | fuel + 1, some tok, save, i, a =>
    match store a i (some (String.mk tok)) with
    | .error e => .error e
    | .ok a1 => tokenize_loop fuel (strtok [' '] save).1 (strtok [' '] save).2 (i + 1) a1

/-- Lines 108-117 of `main`: split `input` at spaces into `args` and terminate
the list with `NULL`. -/
def tokenize (input : String) (a : Args) : Except Abort Args :=
  match tokenize_loop (MAX_ARGS + 1) (strtok [' '] input.data).1 (strtok [' '] input.data).2 0 a with
  | .error e => .error e
  | .ok (i, a1) => store a1 i none

/-! ## `expand_wildcards` (lines 360-399) -/

/-- What `expand_wildcards` leaves behind: its return value, the array, and the
lines it wrote to standard error. -/
structure ExpandResult where
  ret : Int
  args : Args
  err : List String

/-- The loop over `results.gl_pathv` (lines 370-382): the flag is `false` when
the `else` branch (too many arguments) was taken. -/
def add_matches : List String → Nat → Args → Except Abort (Bool × Nat × Args)
  | [], i, a => .ok (true, i, a)
  | m :: ms, i, a =>
    if i < MAX_ARGS - 1 then
      match store a (i + 1) (some m) with
      | .error e => .error e
      | .ok a1 => add_matches ms (i + 1) a1
    else .ok (false, i, a)

/-- The loop `for (k = i + 1; args[k] != NULL; k++) args[k - j] = args[k];`
(lines 385-388).  Every pass reads a further slot, so 65 passes cannot all
succeed. -/
def shift_args (j : Nat) : Nat → Nat → Args → Except Abort Args
  | 0, k, _ => .error (.oobRead k)
  | fuel + 1, k, a =>
    match load a k with
    | .error e => .error e
    | .ok none => .ok a
    | .ok (some s) =>
      match store a (k - j) (some s) with
      | .error e => .error e
      | .ok a1 => shift_args j fuel (k + 1) a1

/-- The outer loop of `expand_wildcards`.  `glob` is the answer of
`glob(pattern, GLOB_NOCHECK | GLOB_TILDE, ...)`: `none` for a non-zero return,
otherwise `gl_pathv`.  The index grows on every pass. -/
def expand_loop (glob : String → Option (List String)) :
    Nat → Nat → Args → List String → Except Abort ExpandResult
  | 0, i, _, _ => .error (.oobRead i)
  | fuel + 1, i, a, err =>
    match load a i with
    | .error e => .error e
    | .ok none => .ok ⟨0, a, err⟩
    | .ok (some tok) =>
      if tok.data.contains '*' then
        match glob tok with
        | none => .ok ⟨1, a, err ++ ["Error: failed to expand wildcard " ++ tok ++ "\n"]⟩
        | some paths =>
          match add_matches paths i a with
          | .error e => .error e
          | .ok (false, _, a1) => .ok ⟨1, a1, err ++ ["Error: too many arguments\n"]⟩
          | .ok (true, i1, a1) =>
            match shift_args paths.length (MAX_ARGS + 1) (i1 + 1) a1 with
            | .error e => .error e
            | .ok a2 =>
              match store a2 (i1 - paths.length + 1) none with
              | .error e => .error e
              | .ok a3 => expand_loop glob fuel (i1 + 1) a3 err
      else expand_loop glob fuel (i + 1) a err

/-- The function `expand_wildcards(args)`. -/
def expand_wildcards (glob : String → Option (List String)) (a : Args) :
    Except Abort ExpandResult :=
  expand_loop glob (MAX_ARGS + 1) 0 a []

/-- What a caller can see of an `expand_wildcards` run: the return value and
the argument list. -/
def expandView (r : Except Abort ExpandResult) : Except Abort (Int × List String) :=
  match r with
  | .error e => .error e
  | .ok x => .ok (x.ret, argv x.args)

/-! ## The operating system -/

abbrev ENOENT : Nat := 2
abbrev EACCES : Nat := 13
abbrev ERANGE : Nat := 34

/-- Answer of `stat(path, &sb)`: either `-1` with `errno` set, or `0` with the
two facts about `st_mode` that the shell looks at. -/
inductive StatResult where
  | failed (errno : Nat)
  | found (isReg : Bool) (ixusr : Bool)
  deriving DecidableEq, Repr

/-- The flags the shell passes to `glob`. -/
structure GlobFlags where
  nocheck : Bool
  tilde : Bool
  append : Bool
  deriving DecidableEq, Repr

/-- What the `FILE *stdout` variable points to. -/
inductive Stream where
  /-- the stream the process started with -/
  | inherited
  /-- the stream opened on `/dev/tty` after a redirected `echo` -/
  | tty
  /-- the file `echo` opened for its redirection -/
  | file (path : String)
  /-- `NULL` -/
  | null
  deriving DecidableEq, Repr

/-- Things done to the process table and the descriptors. -/
inductive Event where
  | pipe
  | fork (path : String) (argv : List String) (input_file output_file : String)
      (output_append : Bool)
  | stdinFromPipe
  | wait
  | system (cmd : String)
  deriving DecidableEq, Repr

/-- The world outside the shell's own variables: the answers of the system
calls, and the traces of what was written and done.  `errno` is the value left
by the library call that failed last; a call that succeeds is taken to leave it
alone.  `openErrno path` is what a failing `fopen` of `path` leaves in `errno`,
`callErrno name` what a failing `system`, `pipe` or `fork` leaves there.  A file
that was written through `fopen(path, "w")` is taken to be readable under the
same path afterwards. -/
structure Sys where
  stat : String → StatResult
  errno : Nat
  strerror : Nat → String
  glob : GlobFlags → String → Option (List String)
  getenv : String → Option String
  file : String → Option String
  openErrno : String → Nat
  callErrno : String → Nat
  writable : String → Bool
  ttyOk : Bool
  cwd : String
  chdir : String → String → Except Nat String
  system : String → Int
  pipeOk : Bool
  forkOk : Bool
  dup2Ok : Bool
  waitStatus : String → List String → Int
  stdout : Stream
  out : List (Stream × String)
  err : List String
  events : List Event

/-- The call `fprintf(stderr, ...)` with the formatted line. -/
def eprint (sys : Sys) (line : String) : Sys := { sys with err := sys.err ++ [line] }

/-- The call `perror(s)`. -/
def perror (sys : Sys) (s : String) : Sys :=
  eprint sys (s ++ ": " ++ sys.strerror sys.errno ++ "\n")

/-- The call `printf(...)` with the formatted text: it goes to whatever `stdout`
is, to the end of the file while `echo` has redirected it. -/
def printf (sys : Sys) (text : String) : Except Abort Sys :=
  match sys.stdout with
  | .null => .error .nullDeref
  | .file p =>
    .ok { sys with file := fun q => if q = p then some ((sys.file p).getD "" ++ text) else sys.file q }
  | st => .ok { sys with out := sys.out ++ [(st, text)] }

/-- The text `printf("%s", s)` writes for a buffer `s`: up to the first NUL. -/
def cstr (s : List Char) : String := String.mk (s.takeWhile (fun c => c ≠ '\x00'))

/-! ## `search_file` (lines 326-358) -/

/-- What `search_file` leaves behind: its return value and, when it copied one,
the path stored in `full_path`. -/
structure SearchResult where
  ret : Int
  full_path : Option String
  sys : Sys

/-- The loop of `search_file` over the directories that are still to be probed. -/
def search_loop (filename : String) : List String → Sys → SearchResult
  | [], sys => ⟨0, none, eprint sys ("Error: file '" ++ filename ++ "' not found\n")⟩
  | d :: ds, sys =>
    let path := d ++ "/" ++ filename
    let r := sys.stat path
    let sys1 : Sys := match r with
      | .failed e => { sys with errno := e }
      | .found _ _ => sys
    if r = .found true true then
      ⟨1, some path, sys1⟩
    else if sys1.errno = ENOENT then
      search_loop filename ds sys1
    else
      ⟨0, none, eprint sys1
        ("Error: failed to access file '" ++ filename ++ "' in directory '" ++ d ++ "'\n")⟩

/-- The function `search_file(filename, full_path)`; `strlen(filename)` needs a
string.  `full_path` is taken to be large enough for the path copied into it. -/
def search_file (filename : Option String) (sys : Sys) : Except Abort SearchResult :=
  match filename with
  | none => .error .nullDeref
  | some f => .ok (search_loop f dirs sys)

/-! ## `execute_builtin_command` (lines 146-324) -/

/-- The call `fgets(line, n + 1, f)` on the characters left in the file: the
characters read (at most `n`, stopping behind a newline) and those still left. -/
def fgets : Nat → List Char → List Char × List Char
  | 0, s => ([], s)
  | _ + 1, [] => ([], [])
  | n + 1, c :: cs =>
    if c = '\n' then ([c], cs) else (c :: (fgets n cs).1, (fgets n cs).2)

/-- The loop `while (fgets(line, sizeof(line), input_file)) printf("%s", line);`.
The counter is the number of characters left; every pass reads at least one. -/
def cat_lines : Nat → List Char → Sys → Except Abort Sys
  | 0, _, sys => .ok sys
  | _ + 1, [], sys => .ok sys
  | fuel + 1, c :: cs, sys =>
    match printf sys (cstr (fgets (MAX_INPUT_LENGTH - 1) (c :: cs)).1) with
    | .error e => .error e
    | .ok sys1 => cat_lines fuel (fgets (MAX_INPUT_LENGTH - 1) (c :: cs)).2 sys1

/-- The loop of `cat` over `args[1]`, `args[2]`, ... (lines 210-227). -/
def cat_args : Nat → Nat → Args → Sys → Except Abort (Int × Sys)
  | 0, i, _, _ => .error (.oobRead i)
  | fuel + 1, i, a, sys =>
    match load a i with
    | .error e => .error e
    | .ok none => .ok (0, sys)
    | .ok (some filename) =>
      match sys.file filename with
      | none =>
        .ok (1, eprint { sys with errno := sys.openErrno filename }
          ("Error: failed to open file '" ++ filename ++ "'\n"))
      | some content =>
        match cat_lines content.length content.data sys with
        | .error e => .error e
        | .ok sys1 => cat_args fuel (i + 1) a sys1

/-- How the scan of `echo` for `">"` ends (lines 239-253). -/
inductive EchoRedirect where
  /-- the list ended: `redirect_output` stays 0 -/
  | absent
  /-- `">"` was the last token -/
  | noFile
  /-- `">"` was found at a slot, which now holds `NULL`, before `name` -/
  | file (name : String) (a : Args)

/-- The loop `for (i = 1; args[i] != NULL; i++)` of `echo` that looks for `">"`. -/
def echo_scan : Nat → Nat → Args → Except Abort EchoRedirect
  | 0, i, _ => .error (.oobRead i)
  | fuel + 1, i, a =>
    match load a i with
    | .error e => .error e
    | .ok none => .ok .absent
    | .ok (some t) =>
      if t = ">" then
        match load a (i + 1) with
        | .error e => .error e
        | .ok none => .ok .noFile
        | .ok (some name) =>
          match store a i none with
          | .error e => .error e
          | .ok a1 => .ok (.file name a1)
      else echo_scan fuel (i + 1) a

/-- The loop of `echo` that prints `args[1]`, `args[2]`, ... (lines 268-282). -/
def echo_print : Nat → Nat → Args → Sys → Except Abort Sys
  | 0, j, _, _ => .error (.oobRead j)
  | fuel + 1, j, a, sys =>
    match load a j with
    | .error e => .error e
    | .ok none => .ok sys
    | .ok (some t) =>
      if t.data.head? = some '$' then
        match sys.getenv (String.mk (t.data.drop 1)) with
        | some v =>
          match printf sys (v ++ " ") with
          | .error e => .error e
          | .ok sys1 => echo_print fuel (j + 1) a sys1
        | none => echo_print fuel (j + 1) a sys
      else
        match printf sys (t ++ " ") with
        | .error e => .error e
        | .ok sys1 => echo_print fuel (j + 1) a sys1

/-- The `echo` branch from the print loop on, on the stream `stdout` now is. -/
def echo_body (a : Args) (sys : Sys) : Except Abort Sys :=
  match echo_print (MAX_ARGS + 1) 1 a sys with
  | .error e => .error e
  | .ok sys1 => printf sys1 "\n"

/-- What `execute_builtin_command` leaves behind. -/
structure BuiltinResult where
  ret : Int
  args : Args
  sys : Sys

/-- The value of `getenv("HOME")`, or `"/"`. -/
def home_dir (sys : Sys) : String := (sys.getenv "HOME").getD "/"

/-- The call `chdir(path)` and the `perror` / `return` that follow it. -/
def cd_to (path : String) (a : Args) (sys : Sys) : BuiltinResult :=
  match sys.chdir sys.cwd path with
  | .error e => ⟨1, a, perror { sys with errno := e } "cd"⟩
  | .ok dir => ⟨0, a, { sys with cwd := dir }⟩

/-- The function `execute_builtin_command(command, args)`. -/
def execute_builtin_command (command : String) (a : Args) (sys : Sys) :
    Except Abort BuiltinResult :=
  if command = "cd" then
    match load a 1 with
    | .error e => .error e
    | .ok none => .ok (cd_to (home_dir sys) a sys)
    | .ok (some dir_path) =>
      if dir_path.data.head? = some '~' then
        .ok (cd_to (home_dir sys ++ String.mk (dir_path.data.drop 1)) a sys)
      else .ok (cd_to dir_path a sys)
  else if command = "pwd" then
    if sys.cwd.length < 1024 then
      match printf sys (sys.cwd ++ "\n") with
      | .error e => .error e
      | .ok sys1 => .ok ⟨0, a, sys1⟩
    else .ok ⟨1, a, perror { sys with errno := ERANGE } "pwd"⟩
  else if command = "cat" then
    match load a 1 with
    | .error e => .error e
    | .ok none => .ok ⟨1, a, eprint sys "Error: no input file specified\n"⟩
    | .ok (some _) =>
      match cat_args (MAX_ARGS + 1) 1 a sys with
      | .error e => .error e
      | .ok (r, sys1) => .ok ⟨r, a, sys1⟩
  else if command = "echo" then
    match echo_scan (MAX_ARGS + 1) 1 a with
    | .error e => .error e
    | .ok .noFile => .ok ⟨1, a, eprint sys "Error: no output file specified\n"⟩
    | .ok .absent =>
      match echo_body a sys with
      | .error e => .error e
      | .ok sys1 => .ok ⟨0, a, sys1⟩
    | .ok (.file output_filename a1) =>
      if sys.writable output_filename then
        let opened : Sys :=
          { sys with
            file := fun q => if q = output_filename then some "" else sys.file q
            stdout := .file output_filename }
        match echo_body a1 opened with
        | .error e => .error e
        | .ok sys1 =>
          if sys1.ttyOk then .ok ⟨0, a1, { sys1 with stdout := .tty }⟩
          else
            .ok ⟨1, a1, eprint { sys1 with stdout := .null, errno := sys1.openErrno "/dev/tty" }
              "Error: failed to restore stdout\n"⟩
      else
        .ok ⟨1, a1, eprint { sys with errno := sys.openErrno output_filename }
          "Error: failed to open output file\n"⟩
  else if command = "ls" then
    match load a 1 with
    | .error e => .error e
    | .ok (some _) => .ok ⟨1, a, eprint sys "Error: ls command does not accept arguments\n"⟩
    | .ok none =>
      let ran : Sys := { sys with events := sys.events ++ [.system "ls"] }
      if sys.system "ls" = -1 then
        .ok ⟨0, a, perror { ran with errno := sys.callErrno "system" } "ls"⟩
      else .ok ⟨0, a, ran⟩
  else .ok ⟨1, a, eprint sys ("Unknown command: " ++ command ++ "\n")⟩

/-! ## `execute_command` (lines 401-612) -/

/-- The string that starts where `s` starts, after `strtok` has run on `s`: it
now ends where the first token ends (and is `s` itself when there is no token). -/
def strtokSeen (delims : List Char) (s : List Char) : List Char :=
  s.takeWhile (isDelim delims) ++
    (s.dropWhile (isDelim delims)).takeWhile (fun x => !isDelim delims x)

/-- The locals `input_file`, `output_file`, `output_append`, `command_redirect`. -/
structure Redir where
  input_file : String
  output_file : String
  output_append : Bool
  command_redirect : Bool

/-- How the token loop of one stage ends: it runs out of tokens, or it returns.
`freed` lists the slots of the array that hold strings `globfree` has released. -/
inductive Parsed where
  | done (i : Nat) (a : Args) (r : Redir) (save : List Char) (freed : List Nat) (sys : Sys)
  | ret (code : Int) (a : Args) (freed : List Nat) (sys : Sys)

/-- The loop over `results.gl_pathv` in `execute_command` (lines 467-476): the
flag is `false` when the loop returned with "too many arguments" (before
`globfree` is reached). -/
def add_paths : List String → Nat → Args → Except Abort (Bool × Nat × Args)
  | [], i, a => .ok (true, i, a)
  | p :: ps, i, a =>
    match store a i (some p) with
    | .error e => .error e
    | .ok a1 => if i + 1 = MAX_ARGS - 1 then .ok (false, i + 1, a1) else add_paths ps (i + 1) a1

/-- The list of released slots after the slots from `lo` up to `hi` (not
included) have been given new pointers. -/
def unfree (freed : List Nat) (lo hi : Nat) : List Nat :=
  freed.filter (fun k => k < lo || hi ≤ k)

/-- The loop `while (token != NULL)` of one stage (lines 420-492).  `save` is
what `strtok(NULL, " ")` continues from.  Every pass uses up a token.  In the
wildcard branch `results` is a fresh local: with `GLOB_APPEND` (set once a `>`
has been seen) `glob` reads it before anything was stored in it; without, the
slots filled from `gl_pathv` point to released strings once `globfree` has run. -/
def parse_loop : Nat → Option (List Char) → List Char → Nat → Args → Redir → List Nat → Sys →
    Except Abort Parsed
  | _, none, save, i, a, r, freed, sys => .ok (.done i a r save freed sys)
  | 0, some _, _, _, _, _, _, _ => .error .stuck
  | fuel + 1, some token, save, i, a, r, freed, sys =>
    if token = ['<'] then
      match strtok [' '] save with
      | (none, _) => .ok (.ret 1 a freed (eprint sys "Error: no input file specified\n"))
      | (some f, s1) =>
        parse_loop fuel (strtok [' '] s1).1 (strtok [' '] s1).2 i a
          { r with input_file := String.mk f } freed sys
    else if token = ['>'] then
      match strtok [' '] save with
      | (none, _) => .ok (.ret 1 a freed (eprint sys "Error: no output file specified\n"))
      | (some f, s1) =>
        if (strtok [' '] s1).1 = some ['>'] then
          parse_loop fuel (strtok [' '] (strtok [' '] s1).2).1 (strtok [' '] (strtok [' '] s1).2).2 i a
            { r with output_file := String.mk f, output_append := true, command_redirect := true }
            freed sys
        else
          parse_loop fuel (strtok [' '] s1).1 (strtok [' '] s1).2 i a
            { r with output_file := String.mk f, command_redirect := true } freed sys
    else if token.contains '*' then
      if r.command_redirect then .error .uninitRead
      else
        match sys.glob ⟨false, false, false⟩ (String.mk token) with
        | none =>
          .ok (.ret 1 a freed
            (eprint sys ("Error: failed to expand wildcard " ++ String.mk token ++ "\n")))
        | some paths =>
          match add_paths paths i a with
          | .error e => .error e
          | .ok (false, i1, a1) =>
            .ok (.ret 1 a1 (unfree freed i i1) (eprint sys "Error: too many arguments\n"))
          | .ok (true, i1, a1) =>
            parse_loop fuel (strtok [' '] save).1 (strtok [' '] save).2 i1 a1 r
              (unfree freed i i1 ++ List.range' i (i1 - i)) sys
    else
      match store a i (some (String.mk token)) with
      | .error e => .error e
      | .ok a1 =>
        if i + 1 = MAX_ARGS - 1 then
          .ok (.ret 1 a1 (unfree freed i (i + 1)) (eprint sys "Error: too many arguments\n"))
        else
          parse_loop fuel (strtok [' '] save).1 (strtok [' '] save).2 (i + 1) a1 r
            (unfree freed i (i + 1)) sys

/-- How the loop over the stages ends: it is left (by `break`, or because
`pipe_token` is `NULL`), or the function returns from inside it. -/
inductive Staged where
  | out (a : Args) (status : Option Int) (freed : List Nat) (sys : Sys)
  | ret (code : Int) (a : Args) (status : Option Int) (freed : List Nat) (sys : Sys)

/-- The loop `while (pipe_token != NULL)` (lines 415-593).  `status` is the
pointer argument: `none` for `NULL`, otherwise the integer it points to.
`lead` holds, on the first pass only, the characters of `args[0]` in front of
`pipe_token`, whose string `strtok(pipe_token, " ")` cuts short.  The child
process is the event `fork`; it hands the list to `execv`, which reads every
string of it; the parent goes on. -/
def stage_loop (path : String) :
    Nat → Option (List Char) → Option (List Char) → Args → Option Int → Redir → List Nat → Sys →
    Except Abort Staged
  | _, none, _, a, status, _, freed, sys => .ok (.out a status freed sys)
  | 0, some _, _, _, _, _, _, _ => .error .stuck
  | fuel + 1, some pipe_token, lead, a, status, r, freed, sys =>
    let a0 : Args := match lead with
      | some l => put a 0 (some (String.mk (l ++ strtokSeen [' '] pipe_token)))
      | none => a
    match parse_loop (pipe_token.length + 1) (strtok [' '] pipe_token).1
        (strtok [' '] pipe_token).2 0 a0 r freed sys with
    | .error e => .error e
    | .ok (.ret c a1 freed1 sys1) => .ok (.ret c a1 status freed1 sys1)
    | .ok (.done i a1 r1 save freed1 sys1) =>
      match store a1 i none with
      | .error e => .error e
      | .ok a2 =>
        if status.isSome then .ok (.out a2 status (unfree freed1 i (i + 1)) sys1)
        else if !sys1.pipeOk then
          .ok (.ret 1 a2 status (unfree freed1 i (i + 1))
            (perror { sys1 with errno := sys1.callErrno "pipe" } "pipe"))
        else if !sys1.forkOk then
          .ok (.ret 1 a2 status (unfree freed1 i (i + 1))
            (perror { sys1 with events := sys1.events ++ [.pipe], errno := sys1.callErrno "fork" }
              "fork"))
        else if (unfree freed1 i (i + 1)).any (fun k => k < i) then .error .useAfterFree
        else if !sys1.dup2Ok then .error (.exited 1)
        else
          stage_loop path fuel (strtok ['|'] save).1 none a2
            (status.map (fun _ => sys1.waitStatus path (argv a2))) r1 (unfree freed1 i (i + 1))
            { sys1 with
              events := sys1.events ++
                [.pipe, .fork path (argv a2) r1.input_file r1.output_file r1.output_append,
                  .stdinFromPipe, .wait] }

/-- What `execute_command` leaves behind: the value returned, the array, the
integer behind `status`, the slots of the array that hold released strings, the
world. -/
structure ExecResult where
  ret : Int
  args : Args
  status : Option Int
  freed : List Nat
  sys : Sys

/-- The function `execute_command(args, status)`.  The path `search_file` has
found is copied into the local `char path[1024]`; line 603 prints `args[0]`. -/
def execute_command (a : Args) (status : Option Int) (sys : Sys) : Except Abort ExecResult :=
  match search_file (a 0) sys with
  | .error e => .error e
  | .ok found =>
    if found.ret ≠ 0 then
      if 1024 < (found.full_path.getD "").length + 1 then
        .error (.pathOverflow ((found.full_path.getD "").length + 1))
      else
        let cmd : List Char := ((a 0).getD "").data
        let a1 := put a 0 (some (String.mk (strtokSeen ['|'] cmd)))
        match stage_loop (found.full_path.getD "") (cmd.length + 1) (strtok ['|'] cmd).1
            (some (cmd.takeWhile (isDelim ['|']))) a1 status
            ⟨"", "", false, false⟩ [] found.sys with
        | .error e => .error e
        | .ok (.ret c a2 st freed sys1) => .ok ⟨c, a2, st, freed, sys1⟩
        | .ok (.out a2 st freed sys1) =>
          if 0 ∈ freed then .error .useAfterFree
          else
            .ok ⟨1, a2, st, freed,
              eprint sys1 ("Command not found: " ++ (a2 0).getD "(null)" ++ "\n")⟩
    else
      .ok ⟨1, a, status, [],
        eprint found.sys ("Command not found: " ++ (a 0).getD "(null)" ++ "\n")⟩

/-! ## The input loop of `main` (lines 62-135) -/

/-- The variables of `main` that live across passes of the input loop.  The
array `args` is the same storage on every pass, so a pass finds in it what the
pass before left; a slot is carried over with the string it held. -/
structure Shell where
  batch_mode : Bool
  status : Int
  args : Args
  sys : Sys

/-- How one pass of the input loop ends: with the next pass, or with `break`. -/
inductive Step where
  | next (sh : Shell)
  | leave (sh : Shell)

/-- The prompt (lines 65-75). -/
def print_prompt (sh : Shell) : Except Abort Shell :=
  if !sh.batch_mode then
    match printf sh.sys (if sh.batch_mode || sh.status = 0 then "mysh> " else "!mysh> ") with
    | .error e => .error e
    | .ok sys1 => .ok { sh with sys := sys1 }
  else .ok sh

/-- The test of line 127 on `args[0]`. -/
def is_builtin (c : String) : Bool :=
  c = "cd" || c = "pwd" || c = "echo" || c = "cat" || c = "ls"

/-- Lines 101-134: what one pass does with the line it has read (`input`, the
newline already cut off). -/
def process_line (input : String) (sh : Shell) : Except Abort Step :=
  if input = "exit" then .ok (.leave sh)
  else
    match tokenize input sh.args with
    | .error e => .error e
    | .ok a =>
      match expand_wildcards (sh.sys.glob ⟨true, true, false⟩) a with
      | .error e => .error e
      | .ok x =>
        let sys1 : Sys := { sh.sys with err := sh.sys.err ++ x.err }
        if x.ret ≠ 0 then .ok (.next { sh with status := 1, args := x.args, sys := sys1 })
        else if (x.args 0).isSome && is_builtin ((x.args 0).getD "") then
          match execute_builtin_command ((x.args 0).getD "") x.args sys1 with
          | .error e => .error e
          | .ok b => .ok (.next { sh with status := b.ret, args := b.args, sys := b.sys })
        else
          match execute_command x.args (some sh.status) sys1 with
          | .error e => .error e
          | .ok r => .ok (.next { sh with status := r.ret, args := r.args, sys := r.sys })

/-- The loop `while (1)` of `main` (lines 62-135) on the lines `fgets` still has
to deliver, each with its newline cut off; at the end of the input `fgets`
returns `NULL` and the loop is left. -/
def main_loop : List String → Shell → Except Abort Shell
  | [], sh => .ok sh
  | input :: more, sh =>
    match print_prompt sh with
    | .error e => .error e
    | .ok sh1 =>
      match process_line input sh1 with
      | .error e => .error e
      | .ok (.leave sh2) => .ok sh2
      | .ok (.next sh2) => main_loop more sh2

/-! ## Reference notions for the claims -/

/-- The maximal runs of characters other than the space, in order. -/
def words (input : String) : List String :=
  ((input.data.splitOn ' ').filter (fun t => t ≠ [])).map String.mk

/-- The non-empty pieces between separators. -/
def pieces (p : Char → Bool) (s : List Char) : List (List Char) :=
  (s.splitOnP p).filter (fun t => t ≠ [])

/-- The array `a` with the tokens `ts` written into the slots from `i` on. -/
def fill (a : Args) (i : Nat) (ts : List String) : Args :=
  fun k => if i ≤ k ∧ k < i + ts.length then ts.get? (k - i) else a k

/-- The test of line 337 on the answer of `stat` for `path`: a regular file
with the owner-execute bit. -/
def isProgram (stat : String → StatResult) (path : String) : Bool :=
  stat path = .found true true

deriving instance DecidableEq for Except

/-- What an `execute_command` run shows: the value returned, the integer behind
`status`, the processes and descriptors touched, the lines on standard error. -/
def execView (r : Except Abort ExecResult) :
    Except Abort (Int × Option Int × List Event × List String) :=
  match r with
  | .error e => .error e
  | .ok x => .ok (x.ret, x.status, x.sys.events, x.sys.err)

/-- What a pass of the input loop shows: whether the loop goes on, `status`, the
processes and descriptors touched, the lines on standard error. -/
def stepView (r : Except Abort Step) : Except Abort (Bool × Int × List Event × List String) :=
  match r with
  | .error e => .error e
  | .ok (.next sh) => .ok (true, sh.status, sh.sys.events, sh.sys.err)
  | .ok (.leave sh) => .ok (false, sh.status, sh.sys.events, sh.sys.err)

/-- What a `search_file` run shows: the value returned, the path copied into
`full_path` (if one was), the lines on standard error. -/
def searchView (r : Except Abort SearchResult) :
    Except Abort (Int × Option String × List String) :=
  match r with
  | .error e => .error e
  | .ok x => .ok (x.ret, x.full_path, x.sys.err)

/-- What the end of a `main_loop` run shows: `status`, the contents of the file
`path`, everything printed through `stdout`, the lines on standard error. -/
def shellView (path : String) (r : Except Abort Shell) :
    Except Abort (Int × Option String × List (Stream × String) × List String) :=
  match r with
  | .error e => .error e
  | .ok sh => .ok (sh.status, sh.sys.file path, sh.sys.out, sh.sys.err)

/-- What a `tokenize` run shows: the argument list. -/
def tokenView (r : Except Abort Args) : Except Abort (List String) :=
  match r with
  | .error e => .error e
  | .ok a => .ok (argv a)

/-! ## Concrete worlds and inputs -/

/-- A world with an empty file system: every `stat` fails with `ENOENT`, no
file can be read, every file can be created, a pattern matches nothing (so
`GLOB_NOCHECK` hands the pattern back and plain `glob` fails), and every
process that is run exits with status 0. -/
def bareSys : Sys where
  stat := fun _ => .failed ENOENT
  errno := 0
  strerror := fun _ => ""
  glob := fun fl p => if fl.nocheck then some [p] else none
  getenv := fun _ => none
  file := fun _ => none
  openErrno := fun _ => ENOENT
  callErrno := fun _ => 11
  writable := fun _ => true
  ttyOk := true
  cwd := "/"
  chdir := fun _ p => .ok p
  system := fun _ => 0
  pipeOk := true
  forkOk := true
  dup2Ok := true
  waitStatus := fun _ _ => 0
  stdout := .inherited
  out := []
  err := []
  events := []

/-- The world `bareSys` with one regular executable file at `path`. -/
def sysWithProgram (path : String) : Sys :=
  { bareSys with stat := fun p => if p = path then .found true true else .failed ENOENT }

/-- A shell in batch mode at the start of its input loop, in the world `sys`. -/
def freshShell (sys : Sys) : Shell := ⟨true, 0, noArgs, sys⟩

/-- A `glob` with `GLOB_NOCHECK` in a directory that holds `a.c` and `b.c`. -/
def globTwoSources : String → Option (List String) :=
  fun p => if p = "*.c" then some ["a.c", "b.c"] else some [p]

/-- A `glob` with `GLOB_NOCHECK` in a directory where nothing matches. -/
def globNoMatch : String → Option (List String) := fun p => some [p]

/-- The names `f`, `ff`, `fff`, ... of `n` files. -/
def fileNames (n : Nat) : List String :=
  (List.range n).map (fun k => String.mk (List.replicate (k + 1) 'f'))

/-- The world `bareSys` with `n` files in the working directory, which `*` matches. -/
def sysWithFiles (n : Nat) : Sys :=
  { bareSys with glob := fun fl p => if p = "*" then some (fileNames n) else
      if fl.nocheck then some [p] else none }

/-- A world in which `/usr/local/sbin` may not be searched and `/bin/ls` is a
regular executable file. -/
def sysDenied : Sys :=
  { bareSys with stat := fun p =>
      if p = "/usr/local/sbin/ls" then .failed EACCES
      else if p = "/bin/ls" then .found true true
      else .failed ENOENT }

/-- A line of 65 tokens `a`, each followed by one space (130 characters). -/
def manyTokens : String := String.mk (List.replicate 65 ['a', ' ']).flatten

/-- A world in which `/usr/local/sbin/ls` is a directory, `/bin/ls` is a regular
executable file, and the last failing library call left `errno` in `errno`. -/
def sysShadowed (errno : Nat) : Sys :=
  { bareSys with
    errno := errno
    stat := fun p =>
      if p = "/usr/local/sbin/ls" then .found false true
      else if p = "/bin/ls" then .found true true
      else .failed ENOENT }

theorem pieces_sep (p : Char → Bool) (c : Char) (s : List Char) (h : p c = true) :
    pieces p (c :: s) = pieces p s := by
  simp [pieces, List.splitOnP_cons, h]

theorem pieces_nil (p : Char → Bool) : pieces p [] = [] := by
  simp [pieces]

theorem pieces_dropWhile (p : Char → Bool) (s : List Char) :
    pieces p (s.dropWhile p) = pieces p s := by
  induction s with
  | nil => rfl
  | cons c cs ih =>
    by_cases h : p c = true
    · simp [List.dropWhile_cons, h, ih, pieces_sep]
    · simp [List.dropWhile_cons, h]

theorem pieces_token (p : Char → Bool) (c : Char) (cs : List Char) (h : p c = false) :
    pieces p (c :: cs) =
      (c :: cs).takeWhile (fun x => !p x) ::
        pieces p (((c :: cs).dropWhile (fun x => !p x)).drop 1) := by
  have hne : (c :: cs).takeWhile (fun x => !p x) ≠ [] := by
    simp [List.takeWhile_cons, h]
  have hno : ∀ x ∈ (c :: cs).takeWhile (fun x => !p x), ¬ p x = true := by
    intro x hx
    have := List.mem_takeWhile_imp hx
    simpa using this
  have hsplit := List.takeWhile_append_dropWhile (fun x => !p x) (c :: cs)
  cases hd : (c :: cs).dropWhile (fun x => !p x) with
  | nil =>
    rw [hd, List.append_nil] at hsplit
    rw [hsplit] at hno hne ⊢
    simp [pieces, List.splitOnP_eq_single p _ hno]
  | cons sep rest =>
    have hsep : p sep = true := by
      have := List.head_dropWhile_not (fun x => !p x) (c :: cs) (by rw [hd]; simp)
      simp [hd] at this
      exact this
    rw [hd] at hsplit
    conv_lhs => rw [← hsplit]
    simp only [pieces, List.drop_succ_cons, List.drop_zero]
    rw [List.splitOnP_first p _ hno sep hsep]
    simp [hne]

theorem isDelim_space : isDelim [' '] = (fun c : Char => c == ' ') := by
  funext c
  simp [isDelim, List.contains, List.elem]
  cases c == ' ' <;> rfl

theorem strtok_none (d : List Char) (s : List Char)
    (h : s.dropWhile (isDelim d) = []) :
    strtok d s = (none, []) ∧ pieces (isDelim d) s = [] := by
  constructor
  · unfold strtok
    rw [h]
  · rw [← pieces_dropWhile, h, pieces_nil]

theorem strtok_some (d : List Char) (s : List Char) (c : Char) (cs : List Char)
    (h : s.dropWhile (isDelim d) = c :: cs) :
    strtok d s = (some ((c :: cs).takeWhile (fun x => !isDelim d x)),
        ((c :: cs).dropWhile (fun x => !isDelim d x)).drop 1) ∧
      pieces (isDelim d) s =
        (c :: cs).takeWhile (fun x => !isDelim d x) ::
          pieces (isDelim d) (((c :: cs).dropWhile (fun x => !isDelim d x)).drop 1) := by
  have hc : isDelim d c = false := by
    have := List.head_dropWhile_not (isDelim d) s (by rw [h]; simp)
    simpa only [h, List.head_cons] using this
  constructor
  · unfold strtok
    rw [h]
  · rw [← pieces_dropWhile, h]
    exact pieces_token (isDelim d) c cs hc

theorem fill_nil (a : Args) (i : Nat) : fill a i [] = a := by
  funext k
  simp [fill]

theorem fill_cons (a : Args) (i : Nat) (t : String) (ts : List String) :
    fill a i (t :: ts) = fill (put a i (some t)) (i + 1) ts := by
  funext k
  simp only [fill, put, List.length_cons]
  by_cases h1 : k = i
  · subst h1
    simp
  · by_cases h2 : i ≤ k ∧ k < i + (ts.length + 1)
    · have h3 : i + 1 ≤ k ∧ k < i + 1 + ts.length := by omega
      obtain ⟨m, hm⟩ : ∃ m, k - i = m + 1 := ⟨k - i - 1, by omega⟩
      have hm2 : k - (i + 1) = m := by omega
      simp [h2, h3, hm, hm2]
    · have h3 : ¬ (i + 1 ≤ k ∧ k < i + 1 + ts.length) := by omega
      simp [h2, h3, h1]

theorem tokenize_loop_pieces (fuel : Nat) :
    ∀ (s : List Char) (i : Nat) (a : Args),
      (pieces (isDelim [' ']) s).length ≤ fuel →
      i + (pieces (isDelim [' ']) s).length ≤ MAX_ARGS →
      tokenize_loop fuel (strtok [' '] s).1 (strtok [' '] s).2 i a =
        .ok (i + (pieces (isDelim [' ']) s).length,
          fill a i ((pieces (isDelim [' ']) s).map String.mk)) := by
  induction fuel with
  | zero =>
    intro s i a h1 _
    have h0 : pieces (isDelim [' ']) s = [] := List.length_eq_zero.mp (Nat.le_zero.mp h1)
    cases hs : s.dropWhile (isDelim [' ']) with
    | nil =>
      obtain ⟨e1, e2⟩ := strtok_none [' '] s hs
      rw [e1, e2]
      simp [tokenize_loop, fill_nil]
    | cons c cs =>
      obtain ⟨_, e2⟩ := strtok_some [' '] s c cs hs
      rw [e2] at h0
      exact absurd h0 (by simp)
  | succ fuel ih =>
    intro s i a h1 h2
    cases hs : s.dropWhile (isDelim [' ']) with
    | nil =>
      obtain ⟨e1, e2⟩ := strtok_none [' '] s hs
      rw [e1, e2]
      simp [tokenize_loop, fill_nil]
    | cons c cs =>
      obtain ⟨e1, e2⟩ := strtok_some [' '] s c cs hs
      rw [e2] at h1 h2
      simp only [List.length_cons] at h1 h2
      have hi : i < MAX_ARGS := by omega
      rw [e1, e2]
      simp only [tokenize_loop, store, hi, if_true]
      rw [ih _ (i + 1) _ (by omega) (by omega)]
      simp only [List.length_cons, List.map_cons, fill_cons]
      congr 2
      omega

theorem words_eq (input : String) :
    words input = (pieces (isDelim [' ']) input.data).map String.mk := by
  rw [isDelim_space]
  rfl

theorem put_fill_eq_mkArgs (a : Args) (ts : List String) :
    put (fill a 0 ts) ts.length none = mkArgs ts a := by
  funext k
  simp only [put, fill, mkArgs]
  by_cases h1 : k = ts.length
  · simp [h1]
  · by_cases h2 : k < ts.length
    · simp [h1, h2]
    · simp [h1, h2]

theorem tokenize_eq (input : String) (a : Args) (h : (words input).length ≤ 63) :
    tokenize input a = .ok (mkArgs (words input) a) := by
  rw [words_eq] at h ⊢
  rw [List.length_map] at h
  have hM : MAX_ARGS = 64 := rfl
  unfold tokenize
  rw [tokenize_loop_pieces (MAX_ARGS + 1) input.data 0 a (by omega) (by omega)]
  have hl : 0 + (pieces (isDelim [' ']) input.data).length < MAX_ARGS := by omega
  simp only [store, hl, if_true]
  congr 1
  have := put_fill_eq_mkArgs a ((pieces (isDelim [' ']) input.data).map String.mk)
  rw [List.length_map] at this
  rw [Nat.zero_add]
  exact this

theorem argvFrom_mkArgs (rest : Args) (ts : List String) :
    ∀ (n i : Nat), i ≤ ts.length → ts.length < i + n →
      argvFrom (mkArgs ts rest) i n = ts.drop i := by
  intro n
  induction n with
  | zero => intro i h1 h2; omega
  | succ n ih =>
    intro i h1 h2
    by_cases hi : i < ts.length
    · have e : mkArgs ts rest i = some (ts.get ⟨i, hi⟩) := by
        simp [mkArgs, hi, List.getElem?_eq_getElem]
      simp only [argvFrom, e]
      rw [ih (i + 1) (by omega) (by omega)]
      exact (List.drop_eq_getElem_cons hi).symm
    · have hi2 : i = ts.length := by omega
      have e : mkArgs ts rest i = none := by
        simp [mkArgs, hi2]
      simp only [argvFrom, e]
      rw [hi2, List.drop_length]

theorem argv_mkArgs (rest : Args) (ts : List String) (h : ts.length < MAX_ARGS) :
    argv (mkArgs ts rest) = ts := by
  unfold argv
  rw [argvFrom_mkArgs rest ts MAX_ARGS 0 (by omega) (by omega)]
  rfl

theorem splitOnP_no_sep (p : Char → Bool) (s : List Char) :
    ∀ t ∈ s.splitOnP p, ∀ x ∈ t, p x = false := by
  induction s with
  | nil => simp
  | cons c cs ih =>
    rw [List.splitOnP_cons]
    by_cases h : p c = true
    · simp only [h, if_true]
      intro t ht
      rcases List.mem_cons.mp ht with rfl | ht
      · simp
      · exact ih t ht
    · simp only [h]
      cases hs : cs.splitOnP p with
      | nil => simp
      | cons u us =>
        rw [hs] at ih
        intro t ht
        rw [List.modifyHead_cons] at ht
        rcases List.mem_cons.mp ht with ht | ht
        · intro x hx
          rw [ht] at hx
          rcases List.mem_cons.mp hx with hx | hx
          · rw [hx]
            simpa using h
          · exact ih u (List.mem_cons_self _ _) x hx
        · exact ih t (List.mem_cons_of_mem _ ht)

theorem splitOnP_flatten (p : Char → Bool) (s : List Char) :
    (s.splitOnP p).flatten = s.filter (fun x => !p x) := by
  induction s with
  | nil => simp
  | cons c cs ih =>
    rw [List.splitOnP_cons]
    by_cases h : p c = true
    · simp [h, ih]
    · cases hs : cs.splitOnP p with
      | nil => exact absurd hs (List.splitOnP_ne_nil p cs)
      | cons u us =>
        rw [hs] at ih
        simp only [h, if_false, List.modifyHead_cons, List.flatten_cons, List.cons_append]
        rw [List.flatten_cons] at ih
        simp [h, ih]

theorem flatten_filter_ne_nil (l : List (List Char)) :
    (l.filter (fun t => t ≠ [])).flatten = l.flatten := by
  induction l with
  | nil => rfl
  | cons t ts ih =>
    by_cases h : t = []
    · rw [List.filter_cons]
      simp only [h, ne_eq, not_true_eq_false, decide_False, Bool.false_eq_true, if_false]
      rw [ih]
      rfl
    · rw [List.filter_cons]
      simp only [h, ne_eq, not_false_eq_true, decide_True, if_true, List.flatten_cons]
      rw [ih]

theorem words_flatten (input : String) :
    ((words input).map String.data).flatten = input.data.filter (fun c => c ≠ ' ') := by
  have h1 : (words input).map String.data =
      (input.data.splitOn ' ').filter (fun t => t ≠ []) := by
    simp only [words, List.map_map]
    conv_rhs => rw [← List.map_id (List.filter _ _)]
    rfl
  rw [h1, flatten_filter_ne_nil, List.splitOn, splitOnP_flatten]
  congr 1
  funext c
  by_cases hc : c = ' ' <;> simp [hc]

theorem words_mem (input : String) (t : String) (h : t ∈ words input) :
    t ≠ "" ∧ ' ' ∉ t.data := by
  simp only [words, List.mem_map, List.mem_filter] at h
  obtain ⟨p, ⟨hp, hne⟩, rfl⟩ := h
  constructor
  · intro e
    have : p = [] := congrArg String.data e
    simp [this] at hne
  · intro hm
    have := splitOnP_no_sep (fun x => x == ' ') input.data p hp ' ' hm
    simp at this

/-! ## `search_file` -/

theorem search_loop_first_match (name : String) (ds : List String) :
    ∀ sys : Sys,
      (∀ d ∈ ds.takeWhile (fun d => !isProgram sys.stat (d ++ "/" ++ name)),
        sys.stat (d ++ "/" ++ name) = .failed ENOENT) →
      match ds.find? (fun d => isProgram sys.stat (d ++ "/" ++ name)) with
      | some d =>
        (search_loop name ds sys).ret = 1 ∧
          (search_loop name ds sys).full_path = some (d ++ "/" ++ name)
      | none =>
        (search_loop name ds sys).ret = 0 ∧ (search_loop name ds sys).full_path = none := by
  induction ds with
  | nil => intro sys _; simp [search_loop]
  | cons d ds ih =>
    intro sys h
    by_cases hit : sys.stat (d ++ "/" ++ name) = .found true true
    · have hp : isProgram sys.stat (d ++ "/" ++ name) = true := by simp [isProgram, hit]
      simp [List.find?_cons, hp, search_loop, hit]
    · have hp : isProgram sys.stat (d ++ "/" ++ name) = false := by simp [isProgram, hit]
      have hd : sys.stat (d ++ "/" ++ name) = .failed ENOENT :=
        h d (by simp [List.takeWhile_cons, hp])
      have hrest := ih { sys with errno := ENOENT } (by
        intro e he
        have he2 : e ∈ ds.takeWhile (fun d => !isProgram sys.stat (d ++ "/" ++ name)) := he
        exact h e (by simp only [List.takeWhile_cons, hp, Bool.not_false, if_true]
                      exact List.mem_cons_of_mem _ he2))
      simp only [List.find?_cons, hp]
      have e : search_loop name (d :: ds) sys = search_loop name ds { sys with errno := ENOENT } := by
        simp [search_loop, hd]
      rw [e]
      exact hrest

theorem search_loop_result (name : String) (ds : List String) :
    ∀ sys : Sys,
      ((search_loop name ds sys).ret = 1 →
        ∃ d ∈ ds, (search_loop name ds sys).full_path = some (d ++ "/" ++ name) ∧
          sys.stat (d ++ "/" ++ name) = .found true true) ∧
      ((search_loop name ds sys).ret ≠ 1 →
        (search_loop name ds sys).ret = 0 ∧ (search_loop name ds sys).full_path = none) := by
  induction ds with
  | nil => intro sys; simp [search_loop]
  | cons d ds ih =>
    intro sys
    by_cases hit : sys.stat (d ++ "/" ++ name) = .found true true
    · simp [search_loop, hit]
    · cases hs : sys.stat (d ++ "/" ++ name) with
      | failed e =>
        by_cases he : e = ENOENT
        · have e1 : search_loop name (d :: ds) sys =
              search_loop name ds { sys with errno := e } := by
            simp [search_loop, hs, he]
          rw [e1]
          obtain ⟨h1, h2⟩ := ih { sys with errno := e }
          refine ⟨fun h => ?_, h2⟩
          obtain ⟨d', hd', hp, hst⟩ := h1 h
          exact ⟨d', List.mem_cons_of_mem _ hd', hp, hst⟩
        · simp [search_loop, hs, he]
      | found r x =>
        by_cases he : sys.errno = ENOENT
        · have e1 : search_loop name (d :: ds) sys = search_loop name ds sys := by
            rw [hs] at hit
            simp [search_loop, hs, hit, he]
          rw [e1]
          obtain ⟨h1, h2⟩ := ih sys
          refine ⟨fun h => ?_, h2⟩
          obtain ⟨d', hd', hp, hst⟩ := h1 h
          exact ⟨d', List.mem_cons_of_mem _ hd', hp, hst⟩
        · rw [hs] at hit
          simp [search_loop, hs, hit, he]

theorem search_loop_only_probes (name : String) (ds : List String) :
    ∀ sys sys2 : Sys, sys2.errno = sys.errno →
      (∀ d ∈ ds, sys2.stat (d ++ "/" ++ name) = sys.stat (d ++ "/" ++ name)) →
      (search_loop name ds sys2).ret = (search_loop name ds sys).ret ∧
        (search_loop name ds sys2).full_path = (search_loop name ds sys).full_path := by
  induction ds with
  | nil => intro sys sys2 _ _; simp [search_loop]
  | cons d ds ih =>
    intro sys sys2 herr hst
    have hd := hst d (List.mem_cons_self _ _)
    have hrest : ∀ e ∈ ds, sys2.stat (e ++ "/" ++ name) = sys.stat (e ++ "/" ++ name) :=
      fun e he => hst e (List.mem_cons_of_mem _ he)
    by_cases hit : sys.stat (d ++ "/" ++ name) = .found true true
    · simp [search_loop, hit, hd]
    · cases hs : sys.stat (d ++ "/" ++ name) with
      | failed e =>
        by_cases he : e = ENOENT
        · have e1 : search_loop name (d :: ds) sys =
              search_loop name ds { sys with errno := e } := by
            simp [search_loop, hs, he]
          have e2 : search_loop name (d :: ds) sys2 =
              search_loop name ds { sys2 with errno := e } := by
            simp [search_loop, hd, hs, he]
          rw [e1, e2]
          exact ih { sys with errno := e } { sys2 with errno := e } rfl hrest
        · simp [search_loop, hd, hs, he]
      | found r x =>
        rw [hs] at hit
        by_cases he : sys.errno = ENOENT
        · have e1 : search_loop name (d :: ds) sys = search_loop name ds sys := by
            simp [search_loop, hs, hit, he]
          have e2 : search_loop name (d :: ds) sys2 = search_loop name ds sys2 := by
            simp [search_loop, hd, hs, hit, herr, he]
          rw [e1, e2]
          exact ih sys sys2 herr hrest
        · simp [search_loop, hd, hs, hit, herr, he]

/-- A probe that finds something other than a regular executable file sets no
`errno`; whether the scan goes on then depends on the `errno` that was left
before the call: with 0 the scan stops at `/usr/local/sbin`, with `ENOENT` it
goes on and finds `/bin/ls`. -/
theorem search_file_reads_stale_errno :
    searchView (search_file (some "ls") (sysShadowed 0)) =
        .ok (0, none, ["Error: failed to access file 'ls' in directory '/usr/local/sbin'\n"]) ∧
      searchView (search_file (some "ls") (sysShadowed ENOENT)) = .ok (1, some "/bin/ls", []) := by
  decide

theorem search_loop_skip (name : String) (e : String) (ds : List String) (sys : Sys)
    (h : sys.stat (e ++ "/" ++ name) = .failed ENOENT) :
    search_loop name (e :: ds) sys = search_loop name ds { sys with errno := ENOENT } := by
  simp [search_loop, h]

theorem search_loop_prefix_program (name : String) (d : String) (post : List String)
    (pre : List String) :
    ∀ sys : Sys, (∀ e ∈ pre, sys.stat (e ++ "/" ++ name) = .failed ENOENT) →
      isProgram sys.stat (d ++ "/" ++ name) = true →
      (search_loop name (pre ++ d :: post) sys).ret = 1 ∧
        (search_loop name (pre ++ d :: post) sys).full_path = some (d ++ "/" ++ name) ∧
        (search_loop name (pre ++ d :: post) sys).sys.err = sys.err := by
  induction pre with
  | nil =>
    intro sys _ hp
    have hs : sys.stat (d ++ "/" ++ name) = .found true true := by simpa [isProgram] using hp
    simp [search_loop, hs]
  | cons e pre ih =>
    intro sys hpre hp
    rw [List.cons_append, search_loop_skip name e _ sys (hpre e (List.mem_cons_self _ _))]
    exact ih { sys with errno := ENOENT } (fun x hx => hpre x (List.mem_cons_of_mem _ hx)) hp

theorem search_loop_prefix_error (name : String) (d : String) (post : List String)
    (pre : List String) (k : Nat) (hk : k ≠ ENOENT) :
    ∀ sys : Sys, (∀ e ∈ pre, sys.stat (e ++ "/" ++ name) = .failed ENOENT) →
      sys.stat (d ++ "/" ++ name) = .failed k →
      (search_loop name (pre ++ d :: post) sys).ret = 0 ∧
        (search_loop name (pre ++ d :: post) sys).full_path = none ∧
        (search_loop name (pre ++ d :: post) sys).sys.err = sys.err ++
          ["Error: failed to access file '" ++ name ++ "' in directory '" ++ d ++ "'\n"] := by
  induction pre with
  | nil =>
    intro sys _ hs
    simp [search_loop, hs, hk, eprint]
  | cons e pre ih =>
    intro sys hpre hs
    rw [List.cons_append, search_loop_skip name e _ sys (hpre e (List.mem_cons_self _ _))]
    exact ih { sys with errno := ENOENT } (fun x hx => hpre x (List.mem_cons_of_mem _ hx)) hs

theorem search_loop_hit (name : String) (ds : List String) :
    ∀ sys : Sys, (search_loop name ds sys).ret = 1 →
      ∃ pre d post, ds = pre ++ d :: post ∧ isProgram sys.stat (d ++ "/" ++ name) = true ∧
        (search_loop name ds sys).full_path = some (d ++ "/" ++ name) ∧
        ∀ e ∈ pre, isProgram sys.stat (e ++ "/" ++ name) = false ∧
          ∀ k, sys.stat (e ++ "/" ++ name) = .failed k → k = ENOENT := by
  induction ds with
  | nil => intro sys h; simp [search_loop] at h
  | cons d ds ih =>
    intro sys h
    by_cases hit : sys.stat (d ++ "/" ++ name) = .found true true
    · refine ⟨[], d, ds, rfl, by simp [isProgram, hit], by simp [search_loop, hit], ?_⟩
      intro e he
      exact absurd he (List.not_mem_nil _)
    · have hnp : isProgram sys.stat (d ++ "/" ++ name) = false := by simp [isProgram, hit]
      cases hs : sys.stat (d ++ "/" ++ name) with
      | failed k =>
        by_cases hk : k = ENOENT
        · have e1 : search_loop name (d :: ds) sys =
              search_loop name ds { sys with errno := k } := by
            simp [search_loop, hs, hk]
          rw [e1] at h ⊢
          obtain ⟨pre, d1, post, hsplit, hp, hpath, hpre⟩ := ih { sys with errno := k } h
          refine ⟨d :: pre, d1, post, by rw [hsplit]; rfl, hp, hpath, ?_⟩
          intro e he
          rcases List.mem_cons.mp he with he | he
          · rw [he]
            refine ⟨hnp, fun k2 hk2 => ?_⟩
            rw [hs] at hk2
            rw [← StatResult.failed.inj hk2]
            exact hk
          · exact hpre e he
        · simp [search_loop, hs, hk] at h
      | found x y =>
        rw [hs] at hit
        by_cases he : sys.errno = ENOENT
        · have e1 : search_loop name (d :: ds) sys = search_loop name ds sys := by
            simp [search_loop, hs, hit, he]
          rw [e1] at h ⊢
          obtain ⟨pre, d1, post, hsplit, hp, hpath, hpre⟩ := ih sys h
          refine ⟨d :: pre, d1, post, by rw [hsplit]; rfl, hp, hpath, ?_⟩
          intro e hmem
          rcases List.mem_cons.mp hmem with hmem | hmem
          · rw [hmem]
            refine ⟨hnp, fun k2 hk2 => ?_⟩
            rw [hs] at hk2
            exact absurd hk2 (by simp)
          · exact hpre e hmem
        · simp [search_loop, hs, hit, he] at h

/-! ## `expand_wildcards` leaves slot 0 alone and is silent when it returns 0 -/

theorem store_ok (a a1 : Args) (i : Nat) (v : Option String) (h : store a i v = .ok a1) :
    i < MAX_ARGS ∧ a1 = put a i v := by
  unfold store at h
  by_cases hi : i < MAX_ARGS
  · simp only [hi, if_true] at h
    exact ⟨hi, (Except.ok.inj h).symm⟩
  · simp [hi] at h

theorem put_other (a : Args) (i k : Nat) (v : Option String) (h : k ≠ i) : put a i v k = a k := by
  simp [put, h]

theorem add_matches_slot0 (ms : List String) :
    ∀ (i : Nat) (a : Args) (b : Bool) (i1 : Nat) (a1 : Args),
      add_matches ms i a = .ok (b, i1, a1) →
      a1 0 = a 0 ∧ (b = true → i1 = i + ms.length) := by
  induction ms with
  | nil =>
    intro i a b i1 a1 h
    simp only [add_matches, Except.ok.injEq, Prod.mk.injEq] at h
    obtain ⟨_, h2, h3⟩ := h
    simp [← h2, ← h3]
  | cons m ms ih =>
    intro i a b i1 a1 h
    unfold add_matches at h
    by_cases hi : i < MAX_ARGS - 1
    · simp only [hi, if_true] at h
      cases hs : store a (i + 1) (some m) with
      | error e => simp [hs] at h
      | ok a2 =>
        rw [hs] at h
        obtain ⟨_, e2⟩ := store_ok _ _ _ _ hs
        obtain ⟨h1, h2⟩ := ih (i + 1) a2 b i1 a1 h
        refine ⟨?_, fun hb => ?_⟩
        · rw [h1, e2, put_other _ _ _ _ (by omega)]
        · rw [h2 hb, List.length_cons]
          omega
    · simp only [hi, if_false, Except.ok.injEq, Prod.mk.injEq] at h
      obtain ⟨h1, _, h3⟩ := h
      refine ⟨by rw [h3], fun hb => ?_⟩
      rw [hb] at h1
      exact absurd h1 (by simp)

theorem shift_args_slot0 (j : Nat) (fuel : Nat) :
    ∀ (k : Nat) (a a1 : Args), j < k → shift_args j fuel k a = .ok a1 → a1 0 = a 0 := by
  induction fuel with
  | zero => intro k a a1 _ h; simp [shift_args] at h
  | succ fuel ih =>
    intro k a a1 hk h
    unfold shift_args at h
    cases hl : load a k with
    | error e => simp [hl] at h
    | ok v =>
      cases v with
      | none =>
        simp only [hl, Except.ok.injEq] at h
        rw [h]
      | some s =>
        simp only [hl] at h
        cases hs : store a (k - j) (some s) with
        | error e => simp [hs] at h
        | ok a2 =>
          rw [hs] at h
          obtain ⟨_, e2⟩ := store_ok _ _ _ _ hs
          rw [ih (k + 1) a2 a1 (by omega) h, e2, put_other _ _ _ _ (by omega)]

theorem expand_loop_slot0 (glob : String → Option (List String)) (fuel : Nat) :
    ∀ (i : Nat) (a : Args) (err : List String) (x : ExpandResult),
      expand_loop glob fuel i a err = .ok x →
      x.args 0 = a 0 ∧ (x.ret = 0 → x.err = err) := by
  induction fuel with
  | zero => intro i a err x h; simp [expand_loop] at h
  | succ fuel ih =>
    intro i a err x h
    unfold expand_loop at h
    cases hl : load a i with
    | error e => simp [hl] at h
    | ok v =>
      cases v with
      | none =>
        simp only [hl, Except.ok.injEq] at h
        subst h
        simp
      | some tok =>
        simp only [hl] at h
        by_cases hstar : tok.data.contains '*' = true
        · simp only [hstar, if_true] at h
          cases hg : glob tok with
          | none =>
            simp only [hg, Except.ok.injEq] at h
            subst h
            simp
          | some paths =>
            simp only [hg] at h
            cases hm : add_matches paths i a with
            | error e => simp [hm] at h
            | ok r =>
              obtain ⟨b, i1, a1⟩ := r
              obtain ⟨m0, mlen⟩ := add_matches_slot0 paths i a b i1 a1 hm
              cases b with
              | false =>
                simp only [hm, Except.ok.injEq] at h
                subst h
                exact ⟨m0, by simp⟩
              | true =>
                simp only [hm] at h
                have hi1 : i1 = i + paths.length := mlen rfl
                cases hsh : shift_args paths.length (MAX_ARGS + 1) (i1 + 1) a1 with
                | error e => simp [hsh] at h
                | ok a2 =>
                  simp only [hsh] at h
                  have s0 := shift_args_slot0 paths.length _ (i1 + 1) a1 a2 (by omega) hsh
                  cases hst : store a2 (i1 - paths.length + 1) none with
                  | error e => simp [hst] at h
                  | ok a3 =>
                    simp only [hst] at h
                    obtain ⟨_, e3⟩ := store_ok _ _ _ _ hst
                    obtain ⟨h1, h2⟩ := ih (i1 + 1) a3 err x h
                    refine ⟨?_, h2⟩
                    rw [h1, e3, put_other _ _ _ _ (by omega), s0, m0]
        · simp only [hstar, if_false] at h
          exact ih (i + 1) a err x h

/-! ## A command that is in no search directory -/

theorem search_loop_absent (name : String) (ds : List String) :
    ∀ sys : Sys, (∀ d ∈ ds, sys.stat (d ++ "/" ++ name) = .failed ENOENT) →
      (search_loop name ds sys).ret = 0 ∧
        (search_loop name ds sys).sys.err =
          sys.err ++ ["Error: file '" ++ name ++ "' not found\n"] ∧
        (search_loop name ds sys).sys.events = sys.events := by
  induction ds with
  | nil => intro sys _; simp [search_loop, eprint]
  | cons d ds ih =>
    intro sys h
    have hd := h d (List.mem_cons_self _ _)
    have e : search_loop name (d :: ds) sys = search_loop name ds { sys with errno := ENOENT } := by
      simp [search_loop, hd]
    rw [e]
    exact ih { sys with errno := ENOENT } (fun e he => h e (List.mem_cons_of_mem _ he))

theorem execute_command_absent (a : Args) (status : Option Int) (sys : Sys) (c : String)
    (h0 : a 0 = some c) (hno : ∀ d ∈ dirs, sys.stat (d ++ "/" ++ c) = .failed ENOENT) :
    ∃ r, execute_command a status sys = .ok r ∧ r.ret = 1 ∧ r.sys.events = sys.events ∧
      r.sys.err = sys.err ++
        ["Error: file '" ++ c ++ "' not found\n", "Command not found: " ++ c ++ "\n"] := by
  obtain ⟨h1, h2, h3⟩ := search_loop_absent c dirs sys hno
  refine ⟨⟨1, a, status, [],
      eprint (search_loop c dirs sys).sys ("Command not found: " ++ c ++ "\n")⟩,
    ?_, rfl, ?_, ?_⟩
  · simp [execute_command, search_file, h0, h1]
  · simpa [eprint] using h3
  · simp [eprint, h2]

/-! ## `execute_command` with a `status` pointer that is not `NULL` -/

/-- C1 (what the code does at the failing input): with `/usr/bin/true` a regular
executable file and `status` a non-`NULL` pointer, `execute_command` on `true`
returns 1, reports "Command not found: true" and runs no process; the line
`printf A | cat` ends the same way, with `status` 1 carried to the next prompt. -/
theorem C1_resolved_command_is_not_run :
    execView (execute_command (mkArgs ["true"] noArgs) (some 0) (sysWithProgram "/usr/bin/true")) =
        .ok (1, some 0, [], ["Command not found: true\n"]) ∧
      stepView (process_line "printf A | cat" (freshShell (sysWithProgram "/usr/bin/printf"))) =
        .ok (true, 1, [], ["Command not found: printf\n"]) := by
  decide

/-- C2 (what the code does at the failing input): for the list
`ls *.c x y z`, where `*.c` matches `a.c` and `b.c`, `expand_wildcards` returns 0
and leaves the list `ls *.c`: the matches are not in it and the tokens behind
the pattern are gone, whatever the slots behind the terminator held. -/
theorem C2_matches_and_tail_are_dropped (rest : Args) :
    expandView (expand_wildcards globTwoSources (mkArgs ["ls", "*.c", "x", "y", "z"] rest)) =
      .ok (0, ["ls", "*.c"]) := by
  rfl

/-- C3 (what the code does at the failing input): for the list
`echo x*nomatch* foo`, where the pattern matches no file, `expand_wildcards`
returns 0 and leaves the list `echo x*nomatch*`: the token `foo` behind the
pattern is gone, whatever the slots behind the terminator held. -/
theorem C3_tail_after_unmatched_pattern_is_dropped (rest : Args) :
    expandView (expand_wildcards globNoMatch (mkArgs ["echo", "x*nomatch*", "foo"] rest)) =
      .ok (0, ["echo", "x*nomatch*"]) := by
  rfl

/-- C4 (what the code does at the failing input): the lines
`echo a b c > /tmp/f` and `cat /tmp/f` leave the text `a b c \n` in the file,
with a space in front of the newline, and `cat` prints that text. -/
theorem C4_echo_writes_trailing_space :
    shellView "/tmp/f"
        (main_loop ["echo a b c > /tmp/f", "cat /tmp/f"] (freshShell bareSys)) =
      .ok (0, some "a b c \n", [(.tty, "a b c \n")], []) := by
  decide

/-- C5 (counterexample): `/bin/ls` is a regular executable file, yet
`search_file` returns 0 for `ls`, because the probe of `/usr/local/sbin` fails
with `EACCES` and that ends the scan. -/
theorem C5_denied_directory_stops_scan :
    (∃ d ∈ dirs, isProgram sysDenied.stat (d ++ "/" ++ "ls") = true) ∧
      searchView (search_file (some "ls") sysDenied) =
        .ok (0, none, ["Error: failed to access file 'ls' in directory '/usr/local/sbin'\n"]) := by
  decide

/-- C5 (amended): for every name and every world, `search_file` returns 1 only
with `full_path` set to `<d>/<name>` for one of the six directories `d` in which
that path is a regular file with the owner-execute bit, and otherwise returns 0
with nothing resolved (so 0 when no directory has such a file).  When every
directory in front of `d` answers "not present": if `<d>/<name>` is such a file
it returns 1 with `full_path` `<d>/<name>` and writes nothing, so the first
directory in order wins; if the probe of `d` fails with another error the scan
ends there with 0 and the report names `d`.  When all six answer "not present"
it returns 0 and reports the name as not found.  Hence, when every directory
probed in front of the first program answers "not present", it returns 1 exactly
when one of the six directories has the program. -/
theorem C5_search_file_first_program (name : String) (sys : Sys) :
    ∃ r, search_file (some name) sys = .ok r ∧
      (r.ret = 1 → ∃ d ∈ dirs, isProgram sys.stat (d ++ "/" ++ name) = true ∧
        r.full_path = some (d ++ "/" ++ name)) ∧
      (r.ret ≠ 1 → r.ret = 0 ∧ r.full_path = none) ∧
      ((∀ d ∈ dirs, isProgram sys.stat (d ++ "/" ++ name) = false) → r.ret = 0) ∧
      (∀ pre d post, dirs = pre ++ d :: post →
        (∀ e ∈ pre, sys.stat (e ++ "/" ++ name) = .failed ENOENT) →
        (isProgram sys.stat (d ++ "/" ++ name) = true →
          r.ret = 1 ∧ r.full_path = some (d ++ "/" ++ name) ∧ r.sys.err = sys.err) ∧
        (∀ k, k ≠ ENOENT → sys.stat (d ++ "/" ++ name) = .failed k →
          r.ret = 0 ∧ r.full_path = none ∧
            r.sys.err = sys.err ++
              ["Error: failed to access file '" ++ name ++ "' in directory '" ++ d ++ "'\n"])) ∧
      ((∀ d ∈ dirs, sys.stat (d ++ "/" ++ name) = .failed ENOENT) →
        r.ret = 0 ∧ r.full_path = none ∧
          r.sys.err = sys.err ++ ["Error: file '" ++ name ++ "' not found\n"]) ∧
      ((∀ d ∈ dirs.takeWhile (fun d => !isProgram sys.stat (d ++ "/" ++ name)),
          sys.stat (d ++ "/" ++ name) = .failed ENOENT) →
        (r.ret = 1 ↔ ∃ d ∈ dirs, isProgram sys.stat (d ++ "/" ++ name) = true) ∧
          ∀ d, dirs.find? (fun d => isProgram sys.stat (d ++ "/" ++ name)) = some d →
            r.full_path = some (d ++ "/" ++ name)) := by
  have hres := search_loop_result name dirs sys
  have hone : (search_loop name dirs sys).ret = 1 →
      ∃ d ∈ dirs, isProgram sys.stat (d ++ "/" ++ name) = true ∧
        (search_loop name dirs sys).full_path = some (d ++ "/" ++ name) := by
    intro h1
    obtain ⟨d, hd, hp, hs⟩ := hres.1 h1
    exact ⟨d, hd, by simp [isProgram, hs], hp⟩
  refine ⟨search_loop name dirs sys, rfl, hone, hres.2, ?_, ?_, ?_, ?_⟩
  · intro hnone
    by_contra h0
    have h1 : (search_loop name dirs sys).ret = 1 := by
      by_contra h1
      exact h0 (hres.2 h1).1
    obtain ⟨d, hd, hp, _⟩ := hone h1
    rw [hnone d hd] at hp
    exact absurd hp (by decide)
  · intro pre d post hsplit hpre
    rw [hsplit]
    exact ⟨fun hp => search_loop_prefix_program name d post pre sys hpre hp,
      fun k hk hs => search_loop_prefix_error name d post pre k hk sys hpre hs⟩
  · intro hall
    obtain ⟨h1, h2, _⟩ := search_loop_absent name dirs sys hall
    exact ⟨h1, (hres.2 (by rw [h1]; decide)).2, h2⟩
  · intro h
    have key := search_loop_first_match name dirs sys h
    cases hf : dirs.find? (fun d => isProgram sys.stat (d ++ "/" ++ name)) with
    | none =>
      rw [hf] at key
      have hnone := List.find?_eq_none.mp hf
      refine ⟨⟨fun h1 => ?_, fun ⟨d, hd, hp⟩ => absurd hp (hnone d hd)⟩, ?_⟩
      · rw [key.1] at h1
        exact absurd h1 (by decide)
      · intro d hd
        exact absurd hd (by simp)
    | some d0 =>
      rw [hf] at key
      have hp0 : isProgram sys.stat (d0 ++ "/" ++ name) = true :=
        List.find?_some (p := fun d => isProgram sys.stat (d ++ "/" ++ name)) hf
      refine ⟨⟨fun _ => ⟨d0, List.mem_of_find?_eq_some hf, hp0⟩, fun _ => key.1⟩, ?_⟩
      intro d hd
      rw [← Option.some.inj hd]
      exact key.2

/-- C5 (witness): `ls` with `/usr/bin/ls` the only file there is: the three
directories in front of `/usr/bin` answer "not present" and `/usr/bin/ls` wins. -/
theorem C5_search_file_first_program_witness :
    ∃ r, search_file (some "ls") (sysWithProgram "/usr/bin/ls") = .ok r ∧
      r.ret = 1 ∧ r.full_path = some ("/usr/bin" ++ "/" ++ "ls") ∧
      r.sys.err = (sysWithProgram "/usr/bin/ls").err := by
  obtain ⟨r, hr, _, _, _, hfirst, _, _⟩ :=
    C5_search_file_first_program "ls" (sysWithProgram "/usr/bin/ls")
  exact ⟨r, hr,
    (hfirst ["/usr/local/sbin", "/usr/local/bin", "/usr/sbin"] "/usr/bin" ["/sbin", "/bin"] rfl
      (by decide)).1 (by decide)⟩

/-- C6 (counterexample): the token `/bin/ls` contains `/` and the file at that
very path is a regular executable file, yet `search_file` returns 0: it has
only looked for `<d>//bin/ls` in the six directories. -/
theorem C6_explicit_path_not_found :
    '/' ∈ "/bin/ls".data ∧ isProgram (sysWithProgram "/bin/ls").stat "/bin/ls" = true ∧
      searchView (search_file (some "/bin/ls") (sysWithProgram "/bin/ls")) =
        .ok (0, none, ["Error: file '/bin/ls' not found\n"]) := by
  decide

/-- C6 (amended): `search_file` has no case for a token with `/`; every token
is looked up as `<d>/<token>` in the six directories, in order.  It returns 1
when `<d>/<token>` is a regular file with the owner-execute bit and every
directory in front of `d` answers "not present"; whenever it returns 1 the
resolved path is `<d>/<token>` for the first directory `d` in order that holds
such a file, and never the token itself; otherwise it returns 0 and resolves
nothing.  In a world where none of the six paths is anything else than such a
file, it returns 1 exactly under that condition.  Its answer is the same in any
two worlds that agree on `errno` and on the six paths, so the file at the
token's own path is not consulted. -/
theorem C6_search_file_prefixes_every_token (token : String) (sys : Sys) :
    ∃ r, search_file (some token) sys = .ok r ∧
      r.full_path ≠ some token ∧
      (∀ pre d post, dirs = pre ++ d :: post →
        (∀ e ∈ pre, sys.stat (e ++ "/" ++ token) = .failed ENOENT) →
        isProgram sys.stat (d ++ "/" ++ token) = true →
        r.ret = 1 ∧ r.full_path = some (d ++ "/" ++ token)) ∧
      (r.ret = 1 → ∃ pre d post, dirs = pre ++ d :: post ∧
        isProgram sys.stat (d ++ "/" ++ token) = true ∧
        r.full_path = some (d ++ "/" ++ token) ∧
        ∀ e ∈ pre, isProgram sys.stat (e ++ "/" ++ token) = false) ∧
      (r.ret ≠ 1 → r.ret = 0 ∧ r.full_path = none) ∧
      ((∀ d ∈ dirs, ∀ x y, sys.stat (d ++ "/" ++ token) = .found x y → x = true ∧ y = true) →
        (r.ret = 1 ↔ ∃ pre d post, dirs = pre ++ d :: post ∧
          (∀ e ∈ pre, sys.stat (e ++ "/" ++ token) = .failed ENOENT) ∧
          isProgram sys.stat (d ++ "/" ++ token) = true)) ∧
      (∀ sys2 : Sys, sys2.errno = sys.errno →
        (∀ d ∈ dirs, sys2.stat (d ++ "/" ++ token) = sys.stat (d ++ "/" ++ token)) →
        ∃ r2, search_file (some token) sys2 = .ok r2 ∧ r2.ret = r.ret ∧
          r2.full_path = r.full_path) := by
  have hres := search_loop_result token dirs sys
  have hhit := search_loop_hit token dirs sys
  refine ⟨search_loop token dirs sys, rfl, ?_, ?_, ?_, hres.2, ?_, ?_⟩
  · intro hp
    by_cases h1 : (search_loop token dirs sys).ret = 1
    · obtain ⟨d, _, hpath, _⟩ := hres.1 h1
      rw [hpath] at hp
      have hlen := congrArg String.length (Option.some.inj hp)
      simp only [String.length_append] at hlen
      have hslash : "/".length = 1 := rfl
      omega
    · rw [(hres.2 h1).2] at hp
      exact absurd hp (by simp)
  · intro pre d post hsplit hpre hp
    rw [hsplit]
    exact ⟨(search_loop_prefix_program token d post pre sys hpre hp).1,
      (search_loop_prefix_program token d post pre sys hpre hp).2.1⟩
  · intro h1
    obtain ⟨pre, d, post, hsplit, hp, hpath, hpre⟩ := hhit h1
    exact ⟨pre, d, post, hsplit, hp, hpath, fun e he => (hpre e he).1⟩
  · intro hclean
    constructor
    · intro h1
      obtain ⟨pre, d, post, hsplit, hp, _, hpre⟩ := hhit h1
      refine ⟨pre, d, post, hsplit, fun e he => ?_, hp⟩
      have hmem : e ∈ dirs := by
        rw [hsplit]
        exact List.mem_append_left _ he
      cases hs : sys.stat (e ++ "/" ++ token) with
      | failed k => rw [(hpre e he).2 k hs]
      | found x y =>
        obtain ⟨hx, hy⟩ := hclean e hmem x y hs
        have hnp := (hpre e he).1
        rw [isProgram, hs, hx, hy] at hnp
        exact absurd hnp (by decide)
    · rintro ⟨pre, d, post, hsplit, hpre, hp⟩
      rw [hsplit]
      exact (search_loop_prefix_program token d post pre sys hpre hp).1
  · intro sys2 herr hst
    exact ⟨search_loop token dirs sys2, rfl, search_loop_only_probes token dirs sys sys2 herr hst⟩

/-- C6 (witness): the token `X11/xterm` is found as `/usr/bin/X11/xterm`. -/
theorem C6_search_file_prefixes_every_token_witness :
    '/' ∈ "X11/xterm".data ∧
      ∃ r, search_file (some "X11/xterm") (sysWithProgram "/usr/bin/X11/xterm") = .ok r ∧
        r.ret = 1 ∧ r.full_path = some ("/usr/bin" ++ "/" ++ "X11/xterm") := by
  obtain ⟨r, hr, _, hwhen, _⟩ :=
    C6_search_file_prefixes_every_token "X11/xterm" (sysWithProgram "/usr/bin/X11/xterm")
  exact ⟨by decide, r, hr,
    hwhen ["/usr/local/sbin", "/usr/local/bin", "/usr/sbin"] "/usr/bin" ["/sbin", "/bin"] rfl
      (by decide) (by decide)⟩

/-- C7 (counterexample): in a directory with 63 files the line
`nonexistentcmd123 *` fails in `expand_wildcards` ("too many arguments"); the
loop goes on with `status` 1, but `execute_command` is not called and no
not-found message naming the command is written. -/
theorem C7_wildcard_overflow_preempts_lookup :
    is_builtin "nonexistentcmd123" = false ∧
      (∀ d ∈ dirs, (sysWithFiles 63).stat (d ++ "/" ++ "nonexistentcmd123") = .failed ENOENT) ∧
      stepView (process_line "nonexistentcmd123 *" (freshShell (sysWithFiles 63))) =
        .ok (true, 1, [], ["Error: too many arguments\n"]) := by
  decide

/-- C7 (amended): for every line other than `exit` that has at most 63 tokens
and passes `expand_wildcards` with return value 0, whose first token `c` is not a
builtin name and is absent from all six search directories (every probe fails
with `ENOENT`), the pass ends with the next pass of the loop, `status` is 1, no
process is run, and standard error has gained exactly the two lines
"Error: file 'c' not found" and "Command not found: c". -/
theorem C7_unknown_command_reported (input : String) (sh : Shell) (c : String)
    (more : List String) (x : ExpandResult)
    (hexit : input ≠ "exit")
    (hwords : words input = c :: more) (hlen : more.length ≤ 62)
    (hexp : expand_wildcards (sh.sys.glob ⟨true, true, false⟩) (mkArgs (c :: more) sh.args) = .ok x)
    (hret : x.ret = 0)
    (hb : is_builtin c = false)
    (hno : ∀ d ∈ dirs, sh.sys.stat (d ++ "/" ++ c) = .failed ENOENT) :
    ∃ sh1, process_line input sh = .ok (.next sh1) ∧ sh1.status = 1 ∧
      sh1.sys.events = sh.sys.events ∧
      sh1.sys.err = sh.sys.err ++
        ["Error: file '" ++ c ++ "' not found\n", "Command not found: " ++ c ++ "\n"] := by
  have htok : tokenize input sh.args = .ok (mkArgs (c :: more) sh.args) := by
    have := tokenize_eq input sh.args (by rw [hwords, List.length_cons]; omega)
    rw [hwords] at this
    exact this
  obtain ⟨hs0, hsilent⟩ := expand_loop_slot0 _ _ 0 _ [] x hexp
  have hx0 : x.args 0 = some c := by
    rw [hs0]
    simp [mkArgs]
  have hxe : x.err = [] := hsilent hret
  obtain ⟨r, hr, hr1, hr2, hr3⟩ :=
    execute_command_absent x.args (some sh.status) { sh.sys with err := sh.sys.err ++ x.err } c hx0
      hno
  refine ⟨{ sh with status := r.ret, args := r.args, sys := r.sys }, ?_, hr1, hr2, ?_⟩
  · unfold process_line
    simp only [hexit, if_false, htok, hexp, hret, hx0]
    simp [hb, hr]
  · rw [hr3, hxe]
    simp

/-- C7 (witness): the line `nonexistentcmd123` in a world without files. -/
theorem C7_unknown_command_reported_witness :
    ∃ sh1, process_line "nonexistentcmd123" (freshShell bareSys) = .ok (.next sh1) ∧
      sh1.status = 1 ∧ sh1.sys.events = (freshShell bareSys).sys.events ∧
      sh1.sys.err = (freshShell bareSys).sys.err ++
        ["Error: file '" ++ "nonexistentcmd123" ++ "' not found\n",
          "Command not found: " ++ "nonexistentcmd123" ++ "\n"] :=
  C7_unknown_command_reported "nonexistentcmd123" (freshShell bareSys) "nonexistentcmd123" []
    ⟨0, mkArgs ["nonexistentcmd123"] noArgs, []⟩ (by decide) (by decide) (by decide) rfl rfl
    (by decide) (by decide)

/-- C8 (what the code does at the failing input): for the empty line the pass
does not end as a no-op: with `args[0]` `NULL` the builtin test is skipped and
`execute_command` hands that `NULL` to `search_file`, which dereferences it. -/
theorem C8_empty_line_reaches_search_file (sh : Shell) :
    tokenView (tokenize "" sh.args) = .ok [] ∧
      stepView (process_line "" sh) = .error .nullDeref := by
  constructor <;> rfl

/-- C9 (what the code does at the failing input): the tokenizer of `main` checks
no bound; on a line of 65 tokens it stores tokens into slots 0 to 63 and then
writes the 65th token to `args[64]`, outside the array, and no "too many
arguments" error is raised for it.  And a line of 44 tokens whose second token
`*` matches 40 files (83 tokens once expanded) passes `expand_wildcards` with
return value 0. -/
theorem C9_tokenizer_writes_past_array (a rest : Args) :
    (words manyTokens).length = 65 ∧ tokenize manyTokens a = .error (.oobWrite 64) ∧
      expandView (expand_wildcards ((sysWithFiles 40).glob ⟨true, true, false⟩)
        (mkArgs ("ls" :: "*" :: List.replicate 42 "x") rest)) = .ok (0, ["ls", "*"]) := by
  refine ⟨by decide, rfl, rfl⟩

/-- C10 (counterexample): a tab is not a delimiter: the line `a<TAB>b` is one
token, which contains the tab. -/
theorem C10_tab_stays_in_token :
    tokenView (tokenize "a\tb" noArgs) = .ok ["a\tb"] ∧ '\t' ∈ "a\tb".data := by
  decide

/-- C10 (amended): for every line with at most 63 tokens the tokenizer of
`main` succeeds and the token list it builds is exactly the sequence, in order,
of the maximal runs of characters other than the space: no token is empty, no
token contains a space, and the tokens concatenated are the line with all
spaces removed. -/
theorem C10_tokens_are_space_runs (input : String) (a : Args)
    (h : (words input).length ≤ 63) :
    ∃ a1, tokenize input a = .ok a1 ∧ argv a1 = words input ∧
      (∀ t ∈ words input, t ≠ "" ∧ ' ' ∉ t.data) ∧
      ((words input).map String.data).flatten = input.data.filter (fun c => c ≠ ' ') :=
  ⟨mkArgs (words input) a, tokenize_eq input a h,
    argv_mkArgs a (words input) (by have : MAX_ARGS = 64 := rfl; omega),
    words_mem input, words_flatten input⟩

/-- C10 (witness): the line `  ls  -l   /tmp ` with its runs of spaces. -/
theorem C10_tokens_are_space_runs_witness :
    words "  ls  -l   /tmp " = ["ls", "-l", "/tmp"] ∧
      ∃ a1, tokenize "  ls  -l   /tmp " noArgs = .ok a1 ∧ argv a1 = words "  ls  -l   /tmp " ∧
        (∀ t ∈ words "  ls  -l   /tmp ", t ≠ "" ∧ ' ' ∉ t.data) ∧
        ((words "  ls  -l   /tmp ").map String.data).flatten =
          "  ls  -l   /tmp ".data.filter (fun c => c ≠ ' ') :=
  ⟨by decide, C10_tokens_are_space_runs "  ls  -l   /tmp " noArgs (by decide)⟩

end Mysh
